import Mathlib

/-!
Shallow embedding of `src/output/yandex_stt.py` (class `YandexSTTClient`).

The client builds a fixed recognition configuration from the process-wide
settings, streams an audio file to the server as a configuration message
followed by fixed-size chunks, and folds the inbound event stream into a
list of final segments joined into a full text.  Transport effects are made
explicit: the outbound half is the list of messages handed to the transport,
and the inbound half is a parameter listing what the gRPC iterator yields
(either a response message or a raised transport error, which ends the
iteration).
-/

namespace YandexSTT

/-- A byte string (`bytes` in the source), one `Nat` per byte. -/
abbrev Bytes := List Nat

/-- The process-wide settings object (`config.settings`) as consumed by
`yandex_stt.py`: `SAMPLE_RATE`, `AUDIO_CHANNELS` (wire values, integers) and
`CHUNK_SIZE` (the byte count passed to `f.read`). -/
structure Settings where
  SAMPLE_RATE : Int
  AUDIO_CHANNELS : Int
  CHUNK_SIZE : Nat
  deriving Repr, DecidableEq

/-- `stt_pb2.RawAudio.audio_encoding` values used by the client. -/
inductive AudioEncoding
  | AUDIO_ENCODING_UNSPECIFIED
  | LINEAR16_PCM
  | OGG_OPUS
  deriving Repr, DecidableEq

/-- `stt_pb2.RawAudio`. -/
structure RawAudio where
  audio_encoding : AudioEncoding
  sample_rate_hertz : Int
  audio_channel_count : Int
  deriving Repr, DecidableEq

/-- `stt_pb2.AudioFormatOptions` (only the `raw_audio` arm is used). -/
structure AudioFormatOptions where
  raw_audio : RawAudio
  deriving Repr, DecidableEq

/-- `stt_pb2.TextNormalizationOptions.TextNormalization` enum. -/
inductive TextNormalizationSetting
  | TEXT_NORMALIZATION_UNSPECIFIED
  | TEXT_NORMALIZATION_ENABLED
  | TEXT_NORMALIZATION_DISABLED
  deriving Repr, DecidableEq

/-- `stt_pb2.TextNormalizationOptions`. -/
structure TextNormalizationOptions where
  text_normalization : TextNormalizationSetting
  profanity_filter : Bool
  literature_text : Bool
  deriving Repr, DecidableEq

/-- `stt_pb2.LanguageRestrictionOptions.LanguageRestrictionType` enum. -/
inductive LanguageRestrictionType
  | LANGUAGE_RESTRICTION_TYPE_UNSPECIFIED
  | WHITELIST
  | BLACKLIST
  deriving Repr, DecidableEq

/-- `stt_pb2.LanguageRestrictionOptions`. -/
structure LanguageRestrictionOptions where
  restriction_type : LanguageRestrictionType
  language_code : List String
  deriving Repr, DecidableEq

/-- `stt_pb2.RecognitionModelOptions.AudioProcessingType` enum. -/
inductive AudioProcessingType
  | AUDIO_PROCESSING_TYPE_UNSPECIFIED
  | REAL_TIME
  | FULL_DATA
  deriving Repr, DecidableEq

/-- `stt_pb2.RecognitionModelOptions`. -/
structure RecognitionModelOptions where
  audio_format : AudioFormatOptions
  text_normalization : TextNormalizationOptions
  language_restriction : LanguageRestrictionOptions
  audio_processing_type : AudioProcessingType
  deriving Repr, DecidableEq

/-- `stt_pb2.StreamingOptions`. -/
structure StreamingOptions where
  recognition_model : RecognitionModelOptions
  deriving Repr, DecidableEq

/-- The client object: `YandexSTTClient.__init__` stores the API key (the
logger child is irrelevant to the computed values). -/
structure YandexSTTClient where
  api_key : String
  deriving Repr, DecidableEq

/-- `YandexSTTClient._create_streaming_options`: builds the recognition
configuration from the process-wide settings.  The method body is a single
protobuf constructor call with literal field values; it contains no
validation and no raise. -/
def _create_streaming_options (self : YandexSTTClient) (settings : Settings) :
    StreamingOptions :=
  { recognition_model :=
    { audio_format :=
      { raw_audio :=
        { audio_encoding := AudioEncoding.LINEAR16_PCM
          sample_rate_hertz := settings.SAMPLE_RATE
          audio_channel_count := settings.AUDIO_CHANNELS } }
      text_normalization :=
      { text_normalization := TextNormalizationSetting.TEXT_NORMALIZATION_ENABLED
        profanity_filter := true
        literature_text := false }
      language_restriction :=
      { restriction_type := LanguageRestrictionType.WHITELIST
        language_code := ["ru-RU"] }
      audio_processing_type := AudioProcessingType.REAL_TIME } }

/-- Because the Python method body cannot raise, the only outcome of the call
is returning the built message; in the error monad of the client its result
is always `Except.ok`.  (`STTError.ConfigurationError` below is the spec's
name for a validation failure; no code path produces it.) -/
inductive STTError
  | ConfigurationError (message : String)
  | StreamingError (code : String) (details : String)
  deriving Repr, DecidableEq

/-- `_create_streaming_options` as a fallible call: the outcome of invoking
the method, which (having no raise in its body) always returns normally. -/
def create_streaming_options_call (self : YandexSTTClient) (settings : Settings) :
    Except STTError StreamingOptions :=
  Except.ok (_create_streaming_options self settings)

/-- One outbound message: `stt_pb2.StreamingRequest`, either the
`session_options` arm or the `chunk` arm wrapping raw bytes. -/
inductive StreamingRequest
  | session_options (options : StreamingOptions)
  | chunk (data : Bytes)
  deriving Repr, DecidableEq

/-- The read loop of `_audio_generator`: `data = f.read(CHUNK_SIZE)` returns
the next at-most-`CHUNK_SIZE` bytes of the file, and an empty read (always
the case once the source is exhausted, and immediately when `CHUNK_SIZE` is
zero) breaks the loop, yielding nothing for it. -/
def readChunks (chunkSize : Nat) (source : Bytes) : List Bytes :=
  if h : chunkSize = 0 ∨ source = [] then []
  else source.take chunkSize :: readChunks chunkSize (source.drop chunkSize)
termination_by source.length
decreasing_by
  push_neg at h
  simp only [List.length_drop]
  have hpos := List.length_pos.mpr h.2
  omega

/-- `YandexSTTClient._audio_generator`: yields the configuration message
first, then one `chunk` message per non-empty read of the audio file. -/
def _audio_generator (self : YandexSTTClient) (settings : Settings)
    (audio_file : Bytes) : List StreamingRequest :=
  StreamingRequest.session_options (_create_streaming_options self settings)
    :: (readChunks settings.CHUNK_SIZE audio_file).map StreamingRequest.chunk

/-- One ranked recognition alternative (`alternatives[i].text`). -/
structure Alternative where
  text : String
  deriving Repr, DecidableEq

/-- The payload of the `partial` and `final` arms: a list of ranked
alternatives. -/
structure AlternativeUpdate where
  alternatives : List Alternative
  deriving Repr, DecidableEq

/-- `final_refinement.normalized_text`: a list of normalized alternatives. -/
structure NormalizedText where
  alternatives : List Alternative
  deriving Repr, DecidableEq

/-- The payload of the `final_refinement` arm. -/
structure FinalRefinementPayload where
  normalized_text : NormalizedText
  deriving Repr, DecidableEq

/-- One inbound `stt_pb2.StreamingResponse`, discriminated by
`response.WhichOneof('Event')`: the arms the client inspects are `partial`
(`partialResult` here), `final` (`finalResult`), and `final_refinement`
(`finalRefinement`); every other populated arm (`otherEvent`) matches no
branch of the loop. -/
inductive StreamingResponse
  | partialResult (p : AlternativeUpdate)
  | finalResult (f : AlternativeUpdate)
  | finalRefinement (fr : FinalRefinementPayload)
  | otherEvent
  deriving Repr, DecidableEq

/-- A transport-level failure raised by the gRPC stream iterator
(`grpc._channel._Rendezvous`), carrying the status code and details that the
except-block reads from `err._state`. -/
structure RendezvousError where
  code : String
  details : String
  deriving Repr, DecidableEq

/-- One step of consuming the inbound iterator: either it yields a response
message, or it raises a transport error (after which no further item is
seen). -/
inductive InboundItem
  | response (r : StreamingResponse)
  | rendezvous (e : RendezvousError)
  deriving Repr, DecidableEq

/-- The mutable locals of the receive loop in `transcribe`:
`segments` and `intermediate_texts`. -/
structure LoopState where
  segments : List String
  intermediate_texts : List String
  deriving Repr, DecidableEq

/-- The body of the `for response in stream` loop in `transcribe`: `partial`
with at least one alternative appends its first alternative's text to
`intermediate_texts` when `save_intermediate` is set (and is otherwise only
logged); `final` with at least one alternative appends its first
alternative's text to `segments`; `final_refinement` is only logged; any
other event matches no branch. -/
def processResponse (save_intermediate : Bool) (st : LoopState) :
    StreamingResponse → LoopState
  | StreamingResponse.partialResult p =>
    match p.alternatives with
    | [] => st
    | a :: _ =>
      if save_intermediate then
        { st with intermediate_texts := st.intermediate_texts ++ [a.text] }
      else st
  | StreamingResponse.finalResult f =>
    match f.alternatives with
    | [] => st
    | a :: _ => { st with segments := st.segments ++ [a.text] }
  | StreamingResponse.finalRefinement _ => st
  | StreamingResponse.otherEvent => st

/-- The receive loop of `transcribe`: folds `processResponse` over the items
the inbound iterator yields; a raised transport error aborts the loop and
propagates (the except-block logs it and re-raises). -/
def runLoop (save_intermediate : Bool) (st : LoopState) :
    List InboundItem → Except RendezvousError LoopState
  | [] => Except.ok st
  | InboundItem.response r :: rest =>
    runLoop save_intermediate (processResponse save_intermediate st r) rest
  | InboundItem.rendezvous e :: _ => Except.error e

/-- The value `transcribe` produces from the inbound stream: on clean end of
iteration, `(' '.join(segments), segments)`; on a raised transport error,
the propagated failure (the spec's `StreamingError`) carrying the underlying
code and details. -/
def transcribeResult (save_intermediate : Bool) (inbound : List InboundItem) :
    Except STTError (String × List String) :=
  match runLoop save_intermediate ⟨[], []⟩ inbound with
  | Except.error e => Except.error (STTError.StreamingError e.code e.details)
  | Except.ok st =>
    Except.ok (String.intercalate " " st.segments, st.segments)

/-- `YandexSTTClient.transcribe`.  The first component is the outbound
message stream the call hands to the transport (`_audio_generator`); the
second is the call's outcome as seen by the caller. -/
def transcribe (self : YandexSTTClient) (settings : Settings)
    (audio_file : Bytes) (save_intermediate : Bool)
    (inbound : List InboundItem) :
    List StreamingRequest × Except STTError (String × List String) :=
  (_audio_generator self settings audio_file,
    transcribeResult save_intermediate inbound)

/-- The spec's `RecognitionEvent` classification, read off the branch
structure of the loop: `partial`/`final` with at least one alternative give
`Partial`/`Final` with the first alternative's text, `final_refinement` with
a normalized alternative gives `FinalRefinement`, and everything else
(including zero-alternative `partial`/`final` messages) is `Unknown`. -/
inductive RecognitionEvent
  | Partial (text : String)
  | Final (text : String)
  | FinalRefinement (text : String)
  | Unknown
  deriving Repr, DecidableEq

/-- Classify one inbound message, following the loop's branch conditions. -/
def classify : StreamingResponse → RecognitionEvent
  | StreamingResponse.partialResult p =>
    match p.alternatives with
    | [] => RecognitionEvent.Unknown
    | a :: _ => RecognitionEvent.Partial a.text
  | StreamingResponse.finalResult f =>
    match f.alternatives with
    | [] => RecognitionEvent.Unknown
    | a :: _ => RecognitionEvent.Final a.text
  | StreamingResponse.finalRefinement fr =>
    match fr.normalized_text.alternatives with
    | [] => RecognitionEvent.Unknown
    | a :: _ => RecognitionEvent.FinalRefinement a.text
  | StreamingResponse.otherEvent => RecognitionEvent.Unknown

/-- The text a single response contributes to `segments`: the first
alternative of a `final` message, nothing otherwise. -/
def finalContribution : StreamingResponse → List String
  | StreamingResponse.finalResult f =>
    match f.alternatives with
    | [] => []
    | a :: _ => [a.text]
  | _ => []

/-- The final texts of an inbound item sequence, in receipt order: one entry
per `final` message carrying at least one alternative. -/
def finalTexts : List InboundItem → List String
  | [] => []
  | InboundItem.response r :: rest => finalContribution r ++ finalTexts rest
  | InboundItem.rendezvous _ :: rest => finalTexts rest

/-- Whether a response is a `final` message carrying at least one
alternative (the condition under which the loop appends a segment). -/
def isFinalWithAlt : StreamingResponse → Bool
  | StreamingResponse.finalResult f => !f.alternatives.isEmpty
  | _ => false

/-- Whether an inbound item is a raised transport error. -/
def isRendezvous : InboundItem → Bool
  | InboundItem.rendezvous _ => true
  | _ => false

/-- The audio payload of an outbound message, when it is a `chunk`. -/
def chunkData : StreamingRequest → Option Bytes
  | StreamingRequest.chunk d => some d
  | _ => none

/-! ### Helper lemmas about the chunking loop -/

theorem readChunks_nil (c : Nat) : readChunks c [] = [] := by
  rw [readChunks]
  simp

theorem readChunks_cons (c : Nat) (source : Bytes) (hc : c ≠ 0)
    (hs : source ≠ []) :
    readChunks c source = source.take c :: readChunks c (source.drop c) := by
  rw [readChunks]
  simp [hc, hs]

theorem readChunks_length (c : Nat) (hc : 0 < c) (source : Bytes) :
    (readChunks c source).length = (source.length + c - 1) / c := by
  by_cases hs : source = []
  · subst hs
    rw [readChunks_nil]
    rw [show ([] : Bytes).length = 0 from rfl,
      show (0 : Nat) + c - 1 = c - 1 by omega,
      Nat.div_eq_of_lt (by omega)]
    rfl
  · rw [readChunks_cons c source (by omega) hs, List.length_cons,
      readChunks_length c hc (source.drop c), List.length_drop]
    have hpos : 0 < source.length := List.length_pos.mpr hs
    rcases Nat.lt_or_ge source.length c with hlt | hge
    · rw [show source.length - c = 0 by omega,
        show (0 : Nat) + c - 1 = c - 1 by omega,
        Nat.div_eq_of_lt (show c - 1 < c by omega),
        show source.length + c - 1 = source.length - 1 + c by omega,
        Nat.add_div_right _ hc,
        Nat.div_eq_of_lt (show source.length - 1 < c by omega)]
    · rw [show source.length - c + c - 1 = source.length - 1 by omega,
        show source.length + c - 1 = source.length - 1 + c by omega,
        Nat.add_div_right _ hc]
termination_by source.length
decreasing_by
  simp only [List.length_drop]
  have := List.length_pos.mpr hs
  omega

theorem readChunks_flatten (c : Nat) (hc : 0 < c) (source : Bytes) :
    (readChunks c source).flatten = source := by
  by_cases hs : source = []
  · subst hs
    rw [readChunks_nil]
    rfl
  · rw [readChunks_cons c source (by omega) hs, List.flatten_cons,
      readChunks_flatten c hc (source.drop c), List.take_append_drop]
termination_by source.length
decreasing_by
  simp only [List.length_drop]
  have := List.length_pos.mpr hs
  omega

theorem readChunks_ne_nil (c : Nat) (source : Bytes) :
    ∀ ch ∈ readChunks c source, ch ≠ [] := by
  intro ch hch
  by_cases h : c = 0 ∨ source = []
  · rw [readChunks] at hch
    simp [h] at hch
  · push_neg at h
    rw [readChunks_cons c source h.1 h.2] at hch
    rcases List.mem_cons.mp hch with h1 | h1
    · subst h1
      obtain ⟨b, t, rfl⟩ := List.exists_cons_of_ne_nil h.2
      cases c with
      | zero => exact absurd rfl h.1
      | succ k => simp
    · exact readChunks_ne_nil c (source.drop c) ch h1
termination_by source.length
decreasing_by
  simp only [List.length_drop]
  have h2 : source ≠ [] := fun he => h (Or.inr he)
  have h3 : c ≠ 0 := fun he => h (Or.inl he)
  have := List.length_pos.mpr h2
  omega

theorem readChunks_getLast (c : Nat) (source : Bytes) (hc : 0 < c)
    (hs : source ≠ []) :
    ∃ last, (readChunks c source).getLast? = some last ∧
      last.length =
        if source.length % c = 0 then c else source.length % c := by
  rw [readChunks_cons c source (by omega) hs]
  have hpos : 0 < source.length := List.length_pos.mpr hs
  by_cases hd : source.drop c = []
  · rw [show readChunks c (source.drop c) = [] from by rw [hd, readChunks_nil]]
    refine ⟨source.take c, rfl, ?_⟩
    have hle : source.length ≤ c := by
      have := List.length_drop c source
      rw [hd] at this
      simp at this
      omega
    rw [List.length_take]
    rcases eq_or_lt_of_le hle with heq | hlt
    · rw [heq, Nat.mod_self]
      simp
    · rw [Nat.mod_eq_of_lt hlt, Nat.min_eq_right (Nat.le_of_lt hlt)]
      rw [if_neg (by omega)]
  · obtain ⟨last, h1, h2⟩ := readChunks_getLast c (source.drop c) hc hd
    refine ⟨last, ?_, ?_⟩
    · have hne : readChunks c (source.drop c) ≠ [] := by
        intro h0
        rw [h0] at h1
        simp at h1
      obtain ⟨x, xs, hx⟩ := List.exists_cons_of_ne_nil hne
      rw [hx] at h1 ⊢
      rw [List.getLast?_cons_cons]
      exact h1
    · have hge : c ≤ source.length := by
        by_contra hlt
        push_neg at hlt
        exact hd (List.drop_eq_nil_of_le (Nat.le_of_lt hlt))
      rw [h2, List.length_drop]
      have hmod : (source.length - c) % c = source.length % c := by
        conv_rhs => rw [show source.length = source.length - c + c by omega]
        rw [Nat.add_mod_right]
      rw [hmod]
termination_by source.length
decreasing_by
  simp only [List.length_drop]
  omega

theorem filterMap_chunkData_map (l : List Bytes) :
    (l.map StreamingRequest.chunk).filterMap chunkData = l := by
  induction l with
  | nil => rfl
  | cons a t ih => simp [chunkData, ih]

/-! ### Helper lemmas about the receive loop -/

theorem processResponse_segments (si : Bool) (st : LoopState)
    (r : StreamingResponse) :
    (processResponse si st r).segments = st.segments ++ finalContribution r := by
  cases r with
  | partialResult p =>
    cases hp : p.alternatives with
    | nil => simp [processResponse, finalContribution, hp]
    | cons a t => cases si <;> simp [processResponse, finalContribution, hp]
  | finalResult f =>
    cases hf : f.alternatives with
    | nil => simp [processResponse, finalContribution, hf]
    | cons a t => simp [processResponse, finalContribution, hf]
  | finalRefinement fr => simp [processResponse, finalContribution]
  | otherEvent => simp [processResponse, finalContribution]

theorem runLoop_ok_segments (si : Bool) (inbound : List InboundItem)
    (st st2 : LoopState) (h : runLoop si st inbound = Except.ok st2) :
    st2.segments = st.segments ++ finalTexts inbound := by
  induction inbound generalizing st with
  | nil =>
    simp only [runLoop, Except.ok.injEq] at h
    subst h
    simp [finalTexts]
  | cons head rest ih =>
    cases head with
    | response r =>
      simp only [runLoop] at h
      rw [ih (processResponse si st r) h, processResponse_segments]
      simp [finalTexts, List.append_assoc]
    | rendezvous e => simp [runLoop] at h

theorem runLoop_responses_ok (si : Bool) (events : List StreamingResponse)
    (st : LoopState) :
    ∃ st2, runLoop si st (events.map InboundItem.response) = Except.ok st2 := by
  induction events generalizing st with
  | nil => exact ⟨st, rfl⟩
  | cons r rest ih =>
    simpa only [List.map_cons, runLoop] using ih (processResponse si st r)

theorem runLoop_error (si : Bool) (pre : List InboundItem)
    (e : RendezvousError) (post : List InboundItem) (st : LoopState)
    (h : ∀ i ∈ pre, isRendezvous i = false) :
    runLoop si st (pre ++ InboundItem.rendezvous e :: post) = Except.error e := by
  induction pre generalizing st with
  | nil => simp [runLoop]
  | cons head rest ih =>
    cases head with
    | response r =>
      simp only [List.cons_append, runLoop]
      exact ih (processResponse si st r)
        (fun i hi => h i (List.mem_cons_of_mem _ hi))
    | rendezvous e2 =>
      have := h (InboundItem.rendezvous e2) (List.mem_cons_self _ _)
      simp [isRendezvous] at this

theorem runLoop_map_segments (si si2 : Bool) (inbound : List InboundItem)
    (st st2 : LoopState) (h : st.segments = st2.segments) :
    (runLoop si st inbound).map LoopState.segments =
      (runLoop si2 st2 inbound).map LoopState.segments := by
  induction inbound generalizing st st2 with
  | nil => simp [runLoop, Except.map, h]
  | cons head rest ih =>
    cases head with
    | response r =>
      simp only [runLoop]
      exact ih (processResponse si st r) (processResponse si2 st2 r)
        (by rw [processResponse_segments, processResponse_segments, h])
    | rendezvous e => simp [runLoop]

theorem finalContribution_eq_nil (r : StreamingResponse)
    (h : isFinalWithAlt r = false) : finalContribution r = [] := by
  cases r with
  | finalResult f =>
    cases hf : f.alternatives with
    | nil => simp [finalContribution, hf]
    | cons a t => simp [isFinalWithAlt, hf] at h
  | partialResult p => rfl
  | finalRefinement fr => rfl
  | otherEvent => rfl

theorem finalTexts_length_eq_filter (events : List StreamingResponse) :
    (finalTexts (events.map InboundItem.response)).length =
      (events.filter isFinalWithAlt).length := by
  induction events with
  | nil => rfl
  | cons r rest ih =>
    simp only [List.map_cons, finalTexts, List.length_append, ih,
      List.filter_cons]
    cases hr : isFinalWithAlt r with
    | false => simp [finalContribution_eq_nil r hr]
    | true =>
      cases r with
      | finalResult f =>
        cases hf : f.alternatives with
        | nil => simp [isFinalWithAlt, hf] at hr
        | cons a t => simp [finalContribution, hf, Nat.add_comm]
      | partialResult p => simp [isFinalWithAlt] at hr
      | finalRefinement fr => simp [isFinalWithAlt] at hr
      | otherEvent => simp [isFinalWithAlt] at hr

theorem finalTexts_eq_nil (events : List StreamingResponse)
    (h : ∀ r ∈ events, isFinalWithAlt r = false) :
    finalTexts (events.map InboundItem.response) = [] := by
  induction events with
  | nil => rfl
  | cons r rest ih =>
    simp only [List.map_cons, finalTexts]
    rw [finalContribution_eq_nil r (h r (List.mem_cons_self _ _)),
      ih (fun x hx => h x (List.mem_cons_of_mem _ hx))]
    rfl

theorem transcribeResult_indep (inbound : List InboundItem) :
    transcribeResult true inbound = transcribeResult false inbound := by
  unfold transcribeResult
  have h := runLoop_map_segments true false inbound ⟨[], []⟩ ⟨[], []⟩ rfl
  cases h1 : runLoop true ⟨[], []⟩ inbound with
  | error e =>
    cases h2 : runLoop false ⟨[], []⟩ inbound with
    | error e2 =>
      rw [h1, h2] at h
      simp only [Except.map, Except.error.injEq] at h
      subst h
      rfl
    | ok st2 =>
      rw [h1, h2] at h
      simp [Except.map] at h
  | ok st =>
    cases h2 : runLoop false ⟨[], []⟩ inbound with
    | error e2 =>
      rw [h1, h2] at h
      simp [Except.map] at h
    | ok st2 =>
      rw [h1, h2] at h
      simp only [Except.map, Except.ok.injEq] at h
      show Except.ok (String.intercalate " " st.segments, st.segments) =
        Except.ok (String.intercalate " " st2.segments, st2.segments)
      rw [h]

/-! ### The claims -/

/-- C1: whenever `transcribe` returns a `(full_text, segments)` pair, the
full text is exactly the segments joined by single spaces, and the segments
are exactly the first-alternative texts of the `final` events, in the exact
order they were received (append-only, no reordering, no deduplication). -/
theorem transcribe_full_text_is_join (self : YandexSTTClient)
    (settings : Settings) (audio_file : Bytes) (save_intermediate : Bool)
    (inbound : List InboundItem) (full : String) (segs : List String)
    (h : (transcribe self settings audio_file save_intermediate inbound).2 =
      Except.ok (full, segs)) :
    full = String.intercalate " " segs ∧ segs = finalTexts inbound := by
  have h2 : transcribeResult save_intermediate inbound =
      Except.ok (full, segs) := h
  unfold transcribeResult at h2
  cases hr : runLoop save_intermediate ⟨[], []⟩ inbound with
  | error e =>
    rw [hr] at h2
    simp at h2
  | ok st =>
    rw [hr] at h2
    simp only [Except.ok.injEq, Prod.mk.injEq] at h2
    obtain ⟨h3, h4⟩ := h2
    have h5 := runLoop_ok_segments save_intermediate inbound ⟨[], []⟩ st hr
    simp only [List.nil_append] at h5
    subst h4
    exact ⟨h3.symm, h5⟩

theorem transcribe_full_text_is_join_witness :
    "hello world" = String.intercalate " " ["hello", "world"] ∧
      ["hello", "world"] =
        finalTexts
          [InboundItem.response
              (StreamingResponse.partialResult ⟨[⟨"hel"⟩]⟩),
            InboundItem.response (StreamingResponse.finalResult ⟨[⟨"hello"⟩]⟩),
            InboundItem.response
              (StreamingResponse.finalRefinement ⟨⟨[⟨"Hello."⟩]⟩⟩),
            InboundItem.response (StreamingResponse.finalResult ⟨[⟨"world"⟩]⟩)] :=
  transcribe_full_text_is_join ⟨"key"⟩ ⟨8000, 1, 4096⟩ [] false
    [InboundItem.response (StreamingResponse.partialResult ⟨[⟨"hel"⟩]⟩),
      InboundItem.response (StreamingResponse.finalResult ⟨[⟨"hello"⟩]⟩),
      InboundItem.response
        (StreamingResponse.finalRefinement ⟨⟨[⟨"Hello."⟩]⟩⟩),
      InboundItem.response (StreamingResponse.finalResult ⟨[⟨"world"⟩]⟩)]
    "hello world" ["hello", "world"] rfl

/-- C2: `partial` and `final_refinement` (and unknown) events never mutate
`segments`: for a rendezvous-free inbound sequence, `transcribe` returns a
pair whose segment list has exactly one entry per `final` event carrying at
least one alternative, however many other events are interleaved. -/
theorem transcribe_segment_count (self : YandexSTTClient)
    (settings : Settings) (audio_file : Bytes) (save_intermediate : Bool)
    (events : List StreamingResponse) :
    ∃ full segs,
      (transcribe self settings audio_file save_intermediate
          (events.map InboundItem.response)).2 = Except.ok (full, segs) ∧
        segs.length = (events.filter isFinalWithAlt).length := by
  obtain ⟨st2, h⟩ :=
    runLoop_responses_ok save_intermediate events ⟨[], []⟩
  refine ⟨String.intercalate " " st2.segments, st2.segments, ?_, ?_⟩
  · show transcribeResult save_intermediate (events.map InboundItem.response) =
      _
    unfold transcribeResult
    rw [h]
  · have h2 := runLoop_ok_segments save_intermediate
      (events.map InboundItem.response) ⟨[], []⟩ st2 h
    simp only [List.nil_append] at h2
    rw [h2, finalTexts_length_eq_filter]

/-- C3: a transport-level failure raised while consuming the inbound stream
makes `transcribe` fail with a `StreamingError` carrying the underlying
error's code and message; the caller receives no `(full_text, segments)`
pair, regardless of how many `final` events were already accumulated. -/
theorem transcribe_transport_error (self : YandexSTTClient)
    (settings : Settings) (audio_file : Bytes) (save_intermediate : Bool)
    (pre : List InboundItem) (e : RendezvousError) (post : List InboundItem)
    (h : ∀ i ∈ pre, isRendezvous i = false) :
    (transcribe self settings audio_file save_intermediate
        (pre ++ InboundItem.rendezvous e :: post)).2 =
      Except.error (STTError.StreamingError e.code e.details) := by
  show transcribeResult save_intermediate
      (pre ++ InboundItem.rendezvous e :: post) = _
  unfold transcribeResult
  rw [runLoop_error save_intermediate pre e post ⟨[], []⟩ h]

theorem transcribe_transport_error_witness :
    (transcribe ⟨"key"⟩ ⟨8000, 1, 4096⟩ [] false
        ([InboundItem.response (StreamingResponse.finalResult ⟨[⟨"hi"⟩]⟩)] ++
          InboundItem.rendezvous ⟨"UNAVAILABLE", "socket closed"⟩ :: [])).2 =
      Except.error
        (STTError.StreamingError
          (RendezvousError.mk "UNAVAILABLE" "socket closed").code
          (RendezvousError.mk "UNAVAILABLE" "socket closed").details) :=
  transcribe_transport_error ⟨"key"⟩ ⟨8000, 1, 4096⟩ [] false
    [InboundItem.response (StreamingResponse.finalResult ⟨[⟨"hi"⟩]⟩)]
    ⟨"UNAVAILABLE", "socket closed"⟩ [] (by decide)

/-- C4 (counterexample): with a non-positive sample rate and channel count
(`SAMPLE_RATE = 0`, `AUDIO_CHANNELS = 0`), constructing the recognition
configuration does not fail — the call returns normally — and a whole
`transcribe` call with those settings completes normally, returning
`("", [])` on a clean empty inbound stream instead of raising any
`ConfigurationError`. -/
theorem create_streaming_options_accepts_nonpositive :
    (create_streaming_options_call ⟨"key"⟩ ⟨0, 0, 4096⟩).isOk = true ∧
      (transcribe ⟨"key"⟩ ⟨0, 0, 4096⟩ [] false []).2 =
        Except.ok ("", []) := by
  exact ⟨rfl, rfl⟩

/-- C4 (amended): the client performs no validation of the session
parameters: for every settings value — non-positive sample rate or channel
count included — constructing the recognition configuration succeeds, the
given values are embedded verbatim in the configuration message, and no
`ConfigurationError` is produced on any path. -/
theorem create_streaming_options_never_fails (self : YandexSTTClient)
    (settings : Settings) :
    (create_streaming_options_call self settings).isOk = true ∧
      (_create_streaming_options self
          settings).recognition_model.audio_format.raw_audio.sample_rate_hertz =
        settings.SAMPLE_RATE ∧
      (_create_streaming_options self
          settings).recognition_model.audio_format.raw_audio.audio_channel_count =
        settings.AUDIO_CHANNELS :=
  ⟨rfl, rfl, rfl⟩

/-- C5: for every audio source, empty or not, the first outbound message the
transport observes is the session-configuration message, and every
audio-chunk message sits strictly after it in the outbound stream. -/
theorem outbound_config_first (self : YandexSTTClient) (settings : Settings)
    (audio_file : Bytes) (save_intermediate : Bool)
    (inbound : List InboundItem) :
    (transcribe self settings audio_file save_intermediate inbound).1.head? =
        some (StreamingRequest.session_options
          (_create_streaming_options self settings)) ∧
      ∀ i d,
        (transcribe self settings audio_file save_intermediate
            inbound).1[i]? = some (StreamingRequest.chunk d) → 1 ≤ i := by
  constructor
  · rfl
  · intro i d hd
    cases i with
    | zero =>
      rw [show (transcribe self settings audio_file save_intermediate
            inbound).1 =
          StreamingRequest.session_options
              (_create_streaming_options self settings) ::
            (readChunks settings.CHUNK_SIZE audio_file).map
              StreamingRequest.chunk from rfl] at hd
      simp at hd
    | succ n => omega

/-- C6: with a positive chunk size `C`, the outbound stream holds exactly
`⌈L / C⌉` audio-chunk messages for an `L`-byte source; concatenated in
stream order they reproduce the source exactly; none is empty; and the last
one has length `L mod C` when that is non-zero, and `C` when `C` divides
`L`. -/
theorem outbound_chunk_messages (self : YandexSTTClient)
    (settings : Settings) (audio_file : Bytes)
    (h : 0 < settings.CHUNK_SIZE) :
    ((_audio_generator self settings audio_file).filterMap chunkData).length =
        (audio_file.length + settings.CHUNK_SIZE - 1) / settings.CHUNK_SIZE ∧
      ((_audio_generator self settings audio_file).filterMap
          chunkData).flatten = audio_file ∧
      (∀ ch ∈ (_audio_generator self settings audio_file).filterMap chunkData,
        ch ≠ []) ∧
      (audio_file ≠ [] →
        ∃ last,
          ((_audio_generator self settings audio_file).filterMap
              chunkData).getLast? = some last ∧
            last.length =
              if audio_file.length % settings.CHUNK_SIZE = 0 then
                settings.CHUNK_SIZE
              else audio_file.length % settings.CHUNK_SIZE) := by
  have hfm : (_audio_generator self settings audio_file).filterMap chunkData =
      readChunks settings.CHUNK_SIZE audio_file := by
    unfold _audio_generator
    rw [List.filterMap_cons]
    simp only [chunkData]
    exact filterMap_chunkData_map _
  rw [hfm]
  exact ⟨readChunks_length _ h _, readChunks_flatten _ h _,
    readChunks_ne_nil _ _, fun hs => readChunks_getLast _ _ h hs⟩

theorem outbound_chunk_messages_witness :
    0 < (Settings.mk 8000 1 2).CHUNK_SIZE ∧
      (((_audio_generator ⟨"key"⟩ ⟨8000, 1, 2⟩
              [10, 11, 12, 13, 14]).filterMap chunkData).length =
          (([10, 11, 12, 13, 14] : Bytes).length +
              (Settings.mk 8000 1 2).CHUNK_SIZE - 1) /
            (Settings.mk 8000 1 2).CHUNK_SIZE ∧
        ((_audio_generator ⟨"key"⟩ ⟨8000, 1, 2⟩
              [10, 11, 12, 13, 14]).filterMap chunkData).flatten =
          [10, 11, 12, 13, 14] ∧
        (∀ ch ∈ (_audio_generator ⟨"key"⟩ ⟨8000, 1, 2⟩
              [10, 11, 12, 13, 14]).filterMap chunkData, ch ≠ []) ∧
        (([10, 11, 12, 13, 14] : Bytes) ≠ [] →
          ∃ last,
            ((_audio_generator ⟨"key"⟩ ⟨8000, 1, 2⟩
                  [10, 11, 12, 13, 14]).filterMap chunkData).getLast? =
                some last ∧
              last.length =
                if ([10, 11, 12, 13, 14] : Bytes).length %
                    (Settings.mk 8000 1 2).CHUNK_SIZE = 0 then
                  (Settings.mk 8000 1 2).CHUNK_SIZE
                else ([10, 11, 12, 13, 14] : Bytes).length %
                  (Settings.mk 8000 1 2).CHUNK_SIZE)) :=
  ⟨by decide,
    outbound_chunk_messages ⟨"key"⟩ ⟨8000, 1, 2⟩ [10, 11, 12, 13, 14]
      (by decide)⟩

/-- C7: classification never fails on malformed or sparse messages: a
`partial` or `final` message with zero alternatives, like a message whose
populated arm is none of the recognized ones, is classified `Unknown` and
leaves the loop state (segments and intermediate texts alike) untouched. -/
theorem classify_degrades_to_unknown (r : StreamingResponse)
    (h : r = StreamingResponse.otherEvent ∨
      (∃ p, r = StreamingResponse.partialResult p ∧ p.alternatives = []) ∨
      (∃ f, r = StreamingResponse.finalResult f ∧ f.alternatives = [])) :
    classify r = RecognitionEvent.Unknown ∧
      ∀ si st, processResponse si st r = st := by
  rcases h with rfl | ⟨p, rfl, hp⟩ | ⟨f, rfl, hf⟩
  · exact ⟨rfl, fun si st => rfl⟩
  · exact ⟨by simp [classify, hp], fun si st => by simp [processResponse, hp]⟩
  · exact ⟨by simp [classify, hf], fun si st => by simp [processResponse, hf]⟩

theorem classify_degrades_to_unknown_witness :
    classify (StreamingResponse.partialResult ⟨[]⟩) =
        RecognitionEvent.Unknown ∧
      ∀ si st,
        processResponse si st (StreamingResponse.partialResult ⟨[]⟩) = st :=
  classify_degrades_to_unknown (StreamingResponse.partialResult ⟨[]⟩)
    (Or.inr (Or.inl ⟨⟨[]⟩, rfl, rfl⟩))

/-- C8: for an empty audio source the outbound stream is exactly the single
configuration message, and on a clean end-of-stream with zero `final`
events `transcribe` completes normally and returns `("", [])`. -/
theorem empty_source_session (self : YandexSTTClient) (settings : Settings)
    (save_intermediate : Bool) (events : List StreamingResponse)
    (h : ∀ r ∈ events, isFinalWithAlt r = false) :
    _audio_generator self settings [] =
        [StreamingRequest.session_options
          (_create_streaming_options self settings)] ∧
      (transcribe self settings [] save_intermediate
          (events.map InboundItem.response)).2 = Except.ok ("", []) := by
  constructor
  · unfold _audio_generator
    rw [readChunks_nil]
    rfl
  · obtain ⟨st2, h2⟩ :=
      runLoop_responses_ok save_intermediate events ⟨[], []⟩
    have hseg := runLoop_ok_segments save_intermediate
      (events.map InboundItem.response) ⟨[], []⟩ st2 h2
    rw [finalTexts_eq_nil events h] at hseg
    simp only [List.nil_append] at hseg
    show transcribeResult save_intermediate (events.map InboundItem.response) =
      _
    unfold transcribeResult
    rw [h2]
    show Except.ok (String.intercalate " " st2.segments, st2.segments) = _
    rw [hseg]
    rfl

theorem empty_source_session_witness :
    _audio_generator ⟨"key"⟩ ⟨8000, 1, 4096⟩ [] =
        [StreamingRequest.session_options
          (_create_streaming_options ⟨"key"⟩ ⟨8000, 1, 4096⟩)] ∧
      (transcribe ⟨"key"⟩ ⟨8000, 1, 4096⟩ [] false
          ([StreamingResponse.partialResult ⟨[⟨"hey"⟩]⟩,
              StreamingResponse.finalResult ⟨[]⟩,
              StreamingResponse.otherEvent].map InboundItem.response)).2 =
        Except.ok ("", []) :=
  empty_source_session ⟨"key"⟩ ⟨8000, 1, 4096⟩ false
    [StreamingResponse.partialResult ⟨[⟨"hey"⟩]⟩,
      StreamingResponse.finalResult ⟨[]⟩, StreamingResponse.otherEvent]
    (by decide)

/-- C9: the value of `transcribe` is independent of `save_intermediate`:
for every inbound stream, running with the flag on and off yields the same
outbound messages and the same returned (or raised) result — the flag only
decides whether partial texts are collected into the never-returned
`intermediate_texts` list. -/
theorem transcribe_ignores_save_intermediate (self : YandexSTTClient)
    (settings : Settings) (audio_file : Bytes) (inbound : List InboundItem) :
    transcribe self settings audio_file true inbound =
      transcribe self settings audio_file false inbound := by
  unfold transcribe
  rw [transcribeResult_indep inbound]

/-- C10: the recognition configuration is constant up to the settings: it
does not depend on the client's API key, and every field other than the
sample rate and channel count (which come verbatim from the process-wide
settings) is fixed — LINEAR16_PCM encoding, whitelist exactly `["ru-RU"]`,
text normalization enabled, profanity filter on, literature text off, and
REAL_TIME processing. -/
theorem streaming_options_fixed (self other : YandexSTTClient)
    (settings : Settings) :
    _create_streaming_options self settings =
        _create_streaming_options other settings ∧
      (_create_streaming_options self
          settings).recognition_model.audio_format.raw_audio.audio_encoding =
        AudioEncoding.LINEAR16_PCM ∧
      (_create_streaming_options self
          settings).recognition_model.language_restriction.language_code =
        ["ru-RU"] ∧
      (_create_streaming_options self
          settings).recognition_model.language_restriction.restriction_type =
        LanguageRestrictionType.WHITELIST ∧
      (_create_streaming_options self
          settings).recognition_model.text_normalization.text_normalization =
        TextNormalizationSetting.TEXT_NORMALIZATION_ENABLED ∧
      (_create_streaming_options self
          settings).recognition_model.text_normalization.profanity_filter =
        true ∧
      (_create_streaming_options self
          settings).recognition_model.text_normalization.literature_text =
        false ∧
      (_create_streaming_options self
          settings).recognition_model.audio_processing_type =
        AudioProcessingType.REAL_TIME ∧
      (_create_streaming_options self
          settings).recognition_model.audio_format.raw_audio.sample_rate_hertz =
        settings.SAMPLE_RATE ∧
      (_create_streaming_options self
          settings).recognition_model.audio_format.raw_audio.audio_channel_count =
        settings.AUDIO_CHANNELS :=
  ⟨rfl, rfl, rfl, rfl, rfl, rfl, rfl, rfl, rfl, rfl⟩

end YandexSTT
